import Mathlib

/-!
Verification model of the LinkedIn auto-poster pipeline
(`linkedin_auto_poster.py` plus the outer `scheduler.py` shell).

The Python source is shallowly embedded: pure helpers become Lean
functions, the external collaborators (RSS feed parser, generation
backend HTTP call, browser automation) become explicit oracle inputs
describing their observable behaviour, and one orchestrator run
(`main`) becomes a function from configuration, oracle world and
dedup-store state to a run result (new store, outcome, event trace,
publish stage reached).  Machine integers are `Nat` with explicit
`% 4294967296` where 32-bit overflow matters.
-/

set_option maxRecDepth 200000

namespace AutoPoster

/-! ### MD5 (model of `hashlib.md5(url.encode()).hexdigest()`)

`get_article_hash` in the source delegates to the standard library's
MD5.  We embed MD5 itself (RFC 1321) so the fingerprint function is a
concrete executable function of the URL string alone. -/

/-- UTF-8 encoding of one character, as byte values (model of
Python's `str.encode()` applied characterwise). -/
def utf8EncodeCharM (c : Char) : List Nat :=
  let n := c.toNat
  if n < 0x80 then [n]
  else if n < 0x800 then
    [0xC0 ||| (n >>> 6), 0x80 ||| (n &&& 0x3F)]
  else if n < 0x10000 then
    [0xE0 ||| (n >>> 12), 0x80 ||| ((n >>> 6) &&& 0x3F), 0x80 ||| (n &&& 0x3F)]
  else
    [0xF0 ||| (n >>> 18), 0x80 ||| ((n >>> 12) &&& 0x3F),
     0x80 ||| ((n >>> 6) &&& 0x3F), 0x80 ||| (n &&& 0x3F)]

/-- UTF-8 bytes of a string (model of `url.encode()`). -/
def strBytes (s : String) : List Nat :=
  s.data.foldr (fun c acc => utf8EncodeCharM c ++ acc) []

/-- The 64 MD5 sine-derived round constants. -/
def md5K : List Nat :=
  [0xd76aa478, 0xe8c7b756, 0x242070db, 0xc1bdceee,
   0xf57c0faf, 0x4787c62a, 0xa8304613, 0xfd469501,
   0x698098d8, 0x8b44f7af, 0xffff5bb1, 0x895cd7be,
   0x6b901122, 0xfd987193, 0xa679438e, 0x49b40821,
   0xf61e2562, 0xc040b340, 0x265e5a51, 0xe9b6c7aa,
   0xd62f105d, 0x02441453, 0xd8a1e681, 0xe7d3fbc8,
   0x21e1cde6, 0xc33707d6, 0xf4d50d87, 0x455a14ed,
   0xa9e3e905, 0xfcefa3f8, 0x676f02d9, 0x8d2a4c8a,
   0xfffa3942, 0x8771f681, 0x6d9d6122, 0xfde5380c,
   0xa4beea44, 0x4bdecfa9, 0xf6bb4b60, 0xbebfbc70,
   0x289b7ec6, 0xeaa127fa, 0xd4ef3085, 0x04881d05,
   0xd9d4d039, 0xe6db99e5, 0x1fa27cf8, 0xc4ac5665,
   0xf4292244, 0x432aff97, 0xab9423a7, 0xfc93a039,
   0x655b59c3, 0x8f0ccc92, 0xffeff47d, 0x85845dd1,
   0x6fa87e4f, 0xfe2ce6e0, 0xa3014314, 0x4e0811a1,
   0xf7537e82, 0xbd3af235, 0x2ad7d2bb, 0xeb86d391]

/-- The 64 MD5 per-round left-rotation amounts. -/
def md5S : List Nat :=
  [7, 12, 17, 22, 7, 12, 17, 22, 7, 12, 17, 22, 7, 12, 17, 22,
   5, 9, 14, 20, 5, 9, 14, 20, 5, 9, 14, 20, 5, 9, 14, 20,
   4, 11, 16, 23, 4, 11, 16, 23, 4, 11, 16, 23, 4, 11, 16, 23,
   6, 10, 15, 21, 6, 10, 15, 21, 6, 10, 15, 21, 6, 10, 15, 21]

/-- Left rotation within 32 bits. -/
def rotl32 (x r : Nat) : Nat :=
  ((x <<< r) ||| (x >>> (32 - r))) % 4294967296

/-- MD5 nonlinear function for round index `i`. -/
def md5F (i b c d : Nat) : Nat :=
  if i < 16 then (b &&& c) ||| ((b ^^^ 0xFFFFFFFF) &&& d)
  else if i < 32 then (d &&& b) ||| ((d ^^^ 0xFFFFFFFF) &&& c)
  else if i < 48 then b ^^^ c ^^^ d
  else c ^^^ (b ||| (d ^^^ 0xFFFFFFFF))

/-- MD5 message-word index for round index `i`. -/
def md5Gidx (i : Nat) : Nat :=
  if i < 16 then i
  else if i < 32 then (5 * i + 1) % 16
  else if i < 48 then (3 * i + 5) % 16
  else (7 * i) % 16

/-- Little-endian byte expansion of `v` to `count` positions. -/
def leBytes (v : Nat) : Nat → List Nat
  | 0 => []
  | n + 1 => (v % 256) :: leBytes (v / 256) n

/-- MD5 padding: `0x80`, zeros to 56 mod 64, then the 64-bit
little-endian bit length. -/
def md5Pad (msg : List Nat) : List Nat :=
  let len := msg.length
  let z := (55 + 64 - len % 64) % 64
  msg ++ [0x80] ++ List.replicate z 0 ++ leBytes ((8 * len) % 2 ^ 64) 8

/-- Decode bytes into 32-bit little-endian words. -/
def bytesToWordsLE : List Nat → List Nat
  | b0 :: b1 :: b2 :: b3 :: rest =>
      (b0 + 256 * (b1 + 256 * (b2 + 256 * b3))) :: bytesToWordsLE rest
  | _ => []

/-- The 64 MD5 rounds over one 16-word block. -/
def md5Rounds (M : List Nat) (st : Nat × Nat × Nat × Nat) : Nat × Nat × Nat × Nat :=
  (List.range 64).foldl
    (fun st i =>
      let (a, b, c, d) := st
      let tmp := (a + md5F i b c d + md5K.getD i 0 + M.getD (md5Gidx i) 0) % 4294967296
      let nb := (b + rotl32 tmp (md5S.getD i 0)) % 4294967296
      (d, nb, b, c))
    st

/-- Process the padded byte stream 64 bytes at a time (`fuel` bounds
the number of chunks). -/
def md5Chunks : Nat → Nat × Nat × Nat × Nat → List Nat → Nat × Nat × Nat × Nat
  | 0, st, _ => st
  | _ + 1, st, [] => st
  | fuel + 1, st, bytes =>
      let (a, b, c, d) := st
      let (a1, b1, c1, d1) := md5Rounds (bytesToWordsLE (bytes.take 64)) st
      md5Chunks fuel
        ((a + a1) % 4294967296, (b + b1) % 4294967296,
         (c + c1) % 4294967296, (d + d1) % 4294967296)
        (bytes.drop 64)

/-- Lower-case hex digit. -/
def hexDigit (n : Nat) : Char :=
  if n < 10 then Char.ofNat (48 + n) else Char.ofNat (87 + n)

/-- Two-digit hex of one byte. -/
def byteHex (b : Nat) : String :=
  String.mk [hexDigit (b / 16 % 16), hexDigit (b % 16)]

/-- Hex of a 32-bit word, least-significant byte first (MD5 digest order). -/
def wordHexLE (w : Nat) : String :=
  byteHex (w % 256) ++ byteHex (w / 256 % 256) ++
  byteHex (w / 65536 % 256) ++ byteHex (w / 16777216 % 256)

/-- MD5 hex digest of a string's UTF-8 bytes
(model of `hashlib.md5(s.encode()).hexdigest()`). -/
def md5Hex (s : String) : String :=
  let bytes := md5Pad (strBytes s)
  let st := md5Chunks bytes.length (0x67452301, 0xefcdab89, 0x98badcfe, 0x10325476) bytes
  wordHexLE st.1 ++ wordHexLE st.2.1 ++ wordHexLE st.2.2.1 ++ wordHexLE st.2.2.2

/-- Model of `get_article_hash(url)`: unique hash for an article URL. -/
def get_article_hash (url : String) : String :=
  md5Hex url

/-! ### Python string primitives

Kernel-computable models of the `str` operations the source uses
(`in`, `.replace`, `.strip`, `' '.join`). -/

/-- Does `l` start with `pat`? -/
def startsWithL : List Char → List Char → Bool
  | [], _ => true
  | _ :: _, [] => false
  | p :: ps, c :: cs => p == c && startsWithL ps cs

/-- Substring containment on character lists (Python `pat in s`). -/
def containsSub (pat : List Char) : List Char → Bool
  | [] => pat.isEmpty
  | c :: cs => startsWithL pat (c :: cs) || containsSub pat cs

/-- Python `pat in s` for strings. -/
def pyIn (pat s : String) : Bool :=
  containsSub pat.data s.data

/-- Replace every non-overlapping occurrence of `pat` (non-empty),
left to right; `fuel` bounds the scan. -/
def replaceL (fuel : Nat) (pat rep l : List Char) : List Char :=
  match fuel, l with
  | 0, l => l
  | _, [] => []
  | f + 1, c :: cs =>
      if startsWithL pat (c :: cs) then
        rep ++ replaceL f pat rep (List.drop pat.length (c :: cs))
      else
        c :: replaceL f pat rep cs

/-- Python `s.replace(pat, rep)` (for non-empty `pat`). -/
def pyReplace (s pat rep : String) : String :=
  String.mk (replaceL s.data.length pat.data rep.data s.data)

/-- Python whitespace: the characters `str.strip()` with no argument
removes (CPython's `Py_UNICODE_ISSPACE`): the ASCII whitespace
`\t \n \x0b \x0c \x0d`, space, the information separators
`\x1c`-`\x1f`, next-line `\x85`, no-break space `\xa0`, and the
Unicode space-separator code points. -/
def isPySpace (c : Char) : Bool :=
  let n := c.toNat
  (9 ≤ n && n ≤ 13) || n == 32 || (28 ≤ n && n ≤ 31) || n == 0x85 || n == 0xa0
    || n == 0x1680 || (0x2000 ≤ n && n ≤ 0x200a) || n == 0x2028 || n == 0x2029
    || n == 0x202f || n == 0x205f || n == 0x3000

/-- Python `s.strip()`. -/
def pyStrip (s : String) : String :=
  String.mk (((s.data.dropWhile isPySpace).reverse.dropWhile isPySpace).reverse)

/-! ### JSON values

Model of the values `json.loads` produces.  Numbers with pure integer
syntax become Python ints (`num`); fraction or exponent syntax, and
the `NaN`/`Infinity` extension tokens Python's `json` accepts, become
Python floats (`fnum`). -/

/-- Stand-in for a Python float: an exact decimal mantissa/exponent
pair (`finite m e` denotes m·10^e) or a non-finite value.  Python
rounds the decimal literal to a binary double; no claim observes the
numeric value of a float, so that rounding is not modelled. -/
inductive JFloat where
  | finite (m : Int) (e : Int)
  | nan
  | inf
  | ninf
  deriving DecidableEq

inductive JValue where
  | null
  | bool (b : Bool)
  | num (n : Int)
  | fnum (f : JFloat)
  | str (s : String)
  | arr (elems : List JValue)
  | obj (fields : List (String × JValue))

/-- Python `d[k]` / `d.get(k)` on a parsed JSON object: with duplicate
keys `json.loads` keeps the last occurrence, so lookup scans from the
right. -/
def lookupField (fields : List (String × JValue)) (k : String) : Option JValue :=
  (fields.reverse.find? (fun kv => kv.1 == k)).map (fun kv => kv.2)

/-- Python truthiness of a JSON value (`if not x`); a zero float is
falsy, `nan` and the infinities are truthy. -/
def pyFalsy : JValue → Bool
  | .null => true
  | .bool b => !b
  | .num n => n == 0
  | .fnum (.finite m _) => m == 0
  | .fnum _ => false
  | .str s => s.isEmpty
  | .arr l => l.isEmpty
  | .obj fs => fs.isEmpty

/-! ### Dedup Store (`posted_articles.json`)

The persisted mapping from article-URL fingerprint to publication
record.  Modelled as an insertion-ordered association list, matching a
Python dict; `save_posted_article`'s read-update-rewrite becomes an
upsert. -/

/-- One stored publication record (§ the dict written per hash key). -/
structure PostedInfo where
  url : String
  posted_at : String
  title : String
  variant_used : JValue

/-- The dedup store contents (the parsed `posted_articles.json`). -/
abbrev Store := List (String × PostedInfo)

/-- Dict upsert preserving insertion order (Python `posted[h] = info`). -/
def storePut : Store → String → PostedInfo → Store
  | [], h, info => [(h, info)]
  | (k, v) :: rest, h, info =>
      if k == h then (h, info) :: rest else (k, v) :: storePut rest h info

/-- Model of `save_posted_article(url, post_info)`: upsert the record keyed by
`get_article_hash url`.  `now` stands for `datetime.now().isoformat()`. -/
def save_posted_article (store : Store) (url : String) (now : String)
    (title : String) (variant_used : JValue) : Store :=
  storePut store (get_article_hash url) ⟨url, now, title, variant_used⟩

/-- Model of `is_already_posted(url)`: is the URL's hash a key of the store? -/
def is_already_posted (url : String) (store : Store) : Bool :=
  store.any (fun kv => kv.1 == get_article_hash url)

/-! ### Feed Scanner (`fetch_latest_blog_post`)

The external feed parser is modelled by its observable output: `none`
when retrieving/parsing the feed raises (the `except` path), otherwise
the ordered entry list.  Each entry's fields are optional, mirroring
`entry.get` with defaults.  `content` is `none` when the entry has no
content list, `some none` when the first content item lacks a value,
`some (some v)` otherwise (the feed parser's content list, when
present, is non-empty). -/

structure Entry where
  link : Option String
  title : Option String
  published : Option String
  summary : Option String
  content : Option (Option String)

/-- The `post_data` dict built for a fresh entry. -/
structure PostData where
  title : String
  link : String
  published : String
  summary : String
  content : String

/-- Field extraction with the source's `entry.get` defaults. -/
def mkPostData (e : Entry) : PostData where
  title := e.title.getD "Untitled"
  link := e.link.getD ""
  published := e.published.getD ""
  summary := e.summary.getD ""
  content :=
    match e.content with
    | some (some v) => v
    | _ => e.summary.getD ""

/-- Model of `fetch_latest_blog_post(rss_url)`: first entry, in feed order,
whose URL hash is not in the store; `none` on empty/exhausted feed or
fetch failure. -/
def fetch_latest_blog_post (feed : Option (List Entry)) (store : Store) :
    Option PostData :=
  match feed with
  | none => none
  | some entries =>
      (entries.find? (fun e => !is_already_posted (e.link.getD "") store)).map mkPostData

/-! ### JSON parsing (model of `json.loads`)

A recursive-descent JSON reader.  The recursion is on an explicit fuel
bounded by twice the input length (the grammar position is encoded in
a mode argument), so the definition is structurally recursive and
kernel-computable.  It follows `json.loads` on its default settings:
the full number grammar with leading zeros refused (integer syntax
yields a Python int, fraction/exponent syntax a float) plus the
`NaN`/`Infinity`/`-Infinity` extension tokens; `\u` escapes with
surrogate pairs combined; raw control characters in strings refused
(strict mode); only space, tab, newline and carriage return as
insignificant whitespace; duplicate object keys kept with the last
occurrence winning.  Not modelled: CPython's recursion limit on
pathologically deep nesting (this reader accepts any depth). -/

/-- JSON insignificant whitespace. -/
def isJsonWs (c : Char) : Bool :=
  c == ' ' || c == '\t' || c == '\n' || c == '\x0d'

/-- Skip insignificant whitespace. -/
def skipWs : List Char → List Char
  | [] => []
  | c :: cs => if isJsonWs c then skipWs cs else c :: cs

/-- One-character string escapes (`\u` is handled separately). -/
def unescape : Char → Option Char
  | 'n' => some '\n'
  | 't' => some '\t'
  | '"' => some '"'
  | '\\' => some '\\'
  | '/' => some '/'
  | 'r' => some '\x0d'
  | 'b' => some '\x08'
  | 'f' => some '\x0c'
  | _ => none

/-- Value of one hexadecimal digit. -/
def hexVal? (c : Char) : Option Nat :=
  let n := c.toNat
  if 48 ≤ n && n ≤ 57 then some (n - 48)
  else if 97 ≤ n && n ≤ 102 then some (n - 87)
  else if 65 ≤ n && n ≤ 70 then some (n - 55)
  else none

/-- Four hexadecimal digits (the payload of a `\u` escape). -/
def readHex4 : List Char → Option (Nat × List Char)
  | a :: b :: c :: d :: cs =>
      match hexVal? a, hexVal? b, hexVal? c, hexVal? d with
      | some x, some y, some z, some w => some (4096 * x + 256 * y + 16 * z + w, cs)
      | _, _, _, _ => none
  | _ => none

/-- Read a string literal body after the opening quote; returns the
decoded string and the input after the closing quote.  Escapes follow
`json.loads`: a high/low `\u` surrogate pair is combined into one
code point; a lone surrogate — which Python's `str` can carry but
Lean's `Char` cannot — is accepted and carried as U+FFFD (acceptance
matches `json.loads`; no claim observes the substituted value).  Raw
control characters below U+0020 are refused (strict mode).  `fuel`
bounds the scan; each step consumes at least one character. -/
def readStrBody : Nat → List Char → List Char → Option (String × List Char)
  | 0, _, _ => none
  | _ + 1, _, [] => none
  | f + 1, acc, c :: cs =>
      if c == '"' then some (String.mk acc.reverse, cs)
      else if c == '\\' then
        match cs with
        | [] => none
        | 'u' :: cs2 =>
            (match readHex4 cs2 with
             | none => none
             | some (n, cs3) =>
                 if 0xD800 ≤ n && n ≤ 0xDBFF then
                   match cs3 with
                   | '\\' :: 'u' :: cs4 =>
                       (match readHex4 cs4 with
                        | some (m, cs5) =>
                            if 0xDC00 ≤ m && m ≤ 0xDFFF then
                              readStrBody f
                                (Char.ofNat (0x10000 + (n - 0xD800) * 0x400 + (m - 0xDC00))
                                  :: acc) cs5
                            else readStrBody f ('\uFFFD' :: acc) cs3
                        | none => readStrBody f ('\uFFFD' :: acc) cs3)
                   | _ => readStrBody f ('\uFFFD' :: acc) cs3
                 else if 0xDC00 ≤ n && n ≤ 0xDFFF then
                   readStrBody f ('\uFFFD' :: acc) cs3
                 else
                   readStrBody f (Char.ofNat n :: acc) cs3)
        | e :: cs2 =>
            match unescape e with
            | some ec => readStrBody f (ec :: acc) cs2
            | none => none
      else if c.toNat < 32 then none
      else readStrBody f (c :: acc) cs

/-- Read a maximal run of decimal digits, accumulating value and
count. -/
def readDigitsAcc (v n : Nat) : List Char → Nat × Nat × List Char
  | [] => (v, n, [])
  | c :: cs =>
      if c.isDigit then readDigitsAcc (v * 10 + (c.toNat - 48)) (n + 1) cs
      else (v, n, c :: cs)

/-- The integer part of a JSON number: `0`, or a nonzero digit
followed by digits.  A redundant leading zero leaves the next digit
unconsumed, which the surrounding grammar then refuses — matching
`json.loads` rejecting it. -/
def readIntPart : List Char → Option (Nat × List Char)
  | '0' :: cs => some (0, cs)
  | c :: cs =>
      if c.isDigit then
        let t := readDigitsAcc (c.toNat - 48) 1 cs
        some (t.1, t.2.2)
      else none
  | [] => none

/-- An optional exponent: `e`/`E`, optional sign, one or more
digits.  Returns `some (none, input)` when no exponent begins here. -/
def readExpPart : List Char → Option (Option Int × List Char)
  | [] => some (none, [])
  | c :: cs =>
      if c == 'e' || c == 'E' then
        let sr : Bool × List Char :=
          match cs with
          | '+' :: r => (false, r)
          | '-' :: r => (true, r)
          | r => (false, r)
        let t := readDigitsAcc 0 0 sr.2
        if t.2.1 == 0 then none
        else some (some (if sr.1 then -(t.1 : Int) else (t.1 : Int)), t.2.2)
      else some (none, c :: cs)

/-- A JSON number after the optional minus sign: integer syntax gives
a Python int, fraction or exponent syntax a float. -/
def readNumBody (neg : Bool) (cs1 : List Char) : Option (JValue × List Char) :=
  match readIntPart cs1 with
  | none => none
  | some (ip, cs2) =>
      match cs2 with
      | '.' :: r =>
          let t := readDigitsAcc 0 0 r
          if t.2.1 == 0 then none
          else
            match readExpPart t.2.2 with
            | none => none
            | some (eo, cs3) =>
                let m : Int := ((ip * 10 ^ t.2.1 + t.1 : Nat) : Int)
                some (.fnum (.finite (if neg then -m else m)
                  ((eo.getD 0) - (t.2.1 : Int))), cs3)
      | _ =>
          match readExpPart cs2 with
          | none => none
          | some (none, cs3) =>
              some (.num (if neg then -(ip : Int) else (ip : Int)), cs3)
          | some (some ev, cs3) =>
              some (.fnum (.finite (if neg then -(ip : Int) else (ip : Int)) ev), cs3)

/-- Read a JSON number. -/
def readNum : List Char → Option (JValue × List Char)
  | '-' :: cs => readNumBody true cs
  | cs => readNumBody false cs

/-- Grammar position for the fuelled reader: a single value, the
elements of an array already opened, or the members of an object
already opened. -/
inductive PMode where
  | val
  | elems (acc : List JValue)
  | fields (acc : List (String × JValue))

/-- Fuelled JSON reader. -/
def parseAux : Nat → PMode → List Char → Option (JValue × List Char)
  | 0, _, _ => none
  | f + 1, .val, cs =>
      match skipWs cs with
      | [] => none
      | '{' :: rest =>
          (match skipWs rest with
           | '}' :: r2 => some (.obj [], r2)
           | _ => parseAux f (.fields []) rest)
      | '[' :: rest =>
          (match skipWs rest with
           | ']' :: r2 => some (.arr [], r2)
           | _ => parseAux f (.elems []) rest)
      | '"' :: rest =>
          (readStrBody (rest.length + 1) [] rest).map (fun p => (.str p.1, p.2))
      | 't' :: 'r' :: 'u' :: 'e' :: rest => some (.bool true, rest)
      | 'f' :: 'a' :: 'l' :: 's' :: 'e' :: rest => some (.bool false, rest)
      | 'n' :: 'u' :: 'l' :: 'l' :: rest => some (.null, rest)
      | 'N' :: 'a' :: 'N' :: rest => some (.fnum .nan, rest)
      | 'I' :: 'n' :: 'f' :: 'i' :: 'n' :: 'i' :: 't' :: 'y' :: rest =>
          some (.fnum .inf, rest)
      | '-' :: 'I' :: 'n' :: 'f' :: 'i' :: 'n' :: 'i' :: 't' :: 'y' :: rest =>
          some (.fnum .ninf, rest)
      | cs2 => readNum cs2
  | f + 1, .elems acc, cs =>
      match parseAux f .val cs with
      | none => none
      | some (v, r) =>
          match skipWs r with
          | ',' :: r2 => parseAux f (.elems (acc ++ [v])) r2
          | ']' :: r2 => some (.arr (acc ++ [v]), r2)
          | _ => none
  | f + 1, .fields acc, cs =>
      match skipWs cs with
      | '"' :: rest =>
          (match readStrBody (rest.length + 1) [] rest with
           | none => none
           | some (k, r) =>
               match skipWs r with
               | ':' :: r2 =>
                   (match parseAux f .val r2 with
                    | none => none
                    | some (v, r3) =>
                        match skipWs r3 with
                        | ',' :: r4 => parseAux f (.fields (acc ++ [(k, v)])) r4
                        | '}' :: r4 => some (.obj (acc ++ [(k, v)]), r4)
                        | _ => none)
               | _ => none)
      | _ => none

/-- Model of `json.loads`: parse a complete JSON document. -/
def parseJson (s : String) : Option JValue :=
  match parseAux (2 * s.data.length + 4) .val s.data with
  | some (v, rest) => if (skipWs rest).isEmpty then some v else none
  | none => none

/-! ### Caption Generator (`generate_linkedin_variants`)

The HTTP call to the generation backend is an external collaborator;
its observable behaviour is the oracle input `genReply`: `none` when
the transport/API call raises (the generic `except` path), otherwise
the model's response text. -/

/-- The markdown code-fence cleanup applied to the response text
before parsing (source line 240). -/
def cleanGeneratedText (s : String) : String :=
  pyStrip (pyReplace (pyReplace s "```json" "") "```" "")

/-- Python `len` on a JSON value: defined for sized values, a
`TypeError` otherwise. -/
def pyLen : JValue → Option Nat
  | .arr l => some l.length
  | .obj fs => some fs.length
  | .str s => some s.length
  | _ => none

/-- Model of `generate_linkedin_variants`: strip fences, `json.loads` the text,
return the `variants` member.  Every exception (transport error,
`JSONDecodeError`, `KeyError`/`TypeError` on the member access or the
`len` in the success log) is caught and becomes `none`. -/
def generate_linkedin_variants (genReply : Option String) : Option JValue :=
  match genReply with
  | none => none
  | some text =>
      match parseJson (cleanGeneratedText text) with
      | none => none
      | some (.obj fs) =>
          match lookupField fs "variants" with
          | none => none
          | some variants => if (pyLen variants).isSome then some variants else none
      | some _ => none

/-- Does a parsed reply have the shape `generate_linkedin_variants`
accepts: a JSON object whose `variants` member exists and has a
Python `len` (list, dict or string)?  Any other parsed value makes
the member access or the `len` in the success log raise inside the
function's `try`, which converts it to a generation failure. -/
def hasSizedVariants : JValue → Bool
  | .obj fs =>
      (match lookupField fs "variants" with
       | some vv => (pyLen vv).isSome
       | none => false)
  | _ => false

/-! ### Variant Selector (`select_best_variant`) -/

/-- The sort key `lambda x: x.get('engagement_score', 0)`, in the
domain where it is an integer (guarded below). -/
def scoreKey (v : JValue) : Int :=
  match v with
  | .obj fs =>
      match lookupField fs "engagement_score" with
      | some (.num n) => n
      | _ => 0
  | _ => 0

/-- Is the value a JSON object (a Python dict)? -/
def isObj : JValue → Bool
  | .obj _ => true
  | _ => false

/-- The sort key evaluates to a number for this candidate (absent
scores default to `0`). -/
def scoreIsNumeric (v : JValue) : Bool :=
  match v with
  | .obj fs =>
      match lookupField fs "engagement_score" with
      | some (.num _) => true
      | some _ => false
      | none => true
  | _ => false

/-- Stable descending insertion by `scoreKey`: an element from earlier
in the original list goes before a later one of equal key. -/
def insertDesc (x : JValue) : List JValue → List JValue
  | [] => [x]
  | y :: ys => if scoreKey y ≤ scoreKey x then x :: y :: ys else y :: insertDesc x ys

/-- Model of `sorted(variants, key=lambda x: x.get('engagement_score', 0),
reverse=True)`.  Python's sort is stable; any stable descending sort
by the same key produces the same list, so a stable insertion sort is
an exact model. -/
def sortByScoreDesc (l : List JValue) : List JValue :=
  l.foldr insertDesc []

/-- Result of `select_best_variant`: `None`, a chosen candidate, or an
uncaught exception (the function has no handler of its own). -/
inductive SelectResult where
  | noneR
  | ok (best : JValue)
  | crash

/-- Model of `select_best_variant(variants)`.  Crash cases: a non-list operand
of `sorted`, a non-dict element (`AttributeError` in the key
function), a present score that is not an int (`TypeError` comparing
sort keys for non-numeric values; scores that are Python floats, or
lists whose scores are all strings, would sort in Python but are not
modelled — no required-shape input produces them and no claim touches
them), or a chosen best lacking a field read by the success log
(`KeyError`). -/
def select_best_variant (variants : JValue) : SelectResult :=
  if pyFalsy variants then .noneR
  else
    match variants with
    | .arr l =>
        if l.all isObj && l.all scoreIsNumeric then
          match sortByScoreDesc l with
          | [] => .crash
          | best :: _ =>
              match best with
              | .obj fs =>
                  if (lookupField fs "type").isSome
                      && (lookupField fs "engagement_score").isSome
                      && (lookupField fs "why_it_works").isSome then
                    .ok best
                  else .crash
              | _ => .crash
        else .crash
    | _ => .crash

/-! ### Publish Driver (`post_to_linkedin`)

The browser-automation stack is an external collaborator; a
`Platform` oracle records which UI interactions succeed (a `false`
flag means the corresponding element lookup / wait raised, which the
function's generic `except` turns into a `False` return after the
`finally` releases the driver) and what URL the browser lands on after
the login click. -/

/-- Observable behaviour of the platform's web surface for one run. -/
structure Platform where
  loginFormOk : Bool
  urlAfterLogin : String
  composerOk : Bool
  postBoxOk : Bool
  postButtonOk : Bool
  commentBoxOk : Bool
  commentButtonOk : Bool

/-- Publish-pipeline stages (the spec's state machine). -/
inductive Stage where
  | init
  | authenticated
  | composerOpen
  | mainPostPublished
  | commentPosted
  deriving DecidableEq

/-- What one `post_to_linkedin` call did: its return value, the last
stage completed, whether the browser touched the platform at all, and
the exact text sent to the composer (when it was reached). -/
structure PubResult where
  success : Bool
  stage : Stage
  visited : Bool
  injected : Option String

/-- The composed post text (source line 340):
`f"{caption}\n\n{' '.join(['#' + tag for tag in hashtags])}"`. -/
def full_caption (caption : String) (hashtags : List String) : String :=
  caption ++ "\n\n" ++ String.intercalate " " (hashtags.map (fun tag => "#" ++ tag))

/-- Python `repr` of a JSON value, simplified: string contents are not
re-escaped and single quotes are always used.  Only reachable for
non-string payloads, which no generation-contract input and no claim
produces. -/
def pyReprJ : Nat → JValue → String
  | _, .str s => "\x27" ++ s ++ "\x27"
  | _, .num n => toString n
  | _, .fnum (.finite m e) => toString m ++ "e" ++ toString e
  | _, .fnum .nan => "nan"
  | _, .fnum .inf => "inf"
  | _, .fnum .ninf => "-inf"
  | _, .bool true => "True"
  | _, .bool false => "False"
  | _, .null => "None"
  | 0, _ => ""
  | f + 1, .arr l => "[" ++ String.intercalate ", " (l.map (pyReprJ f)) ++ "]"
  | f + 1, .obj fs =>
      "\x7b" ++
        String.intercalate ", "
          (fs.map (fun kv => "\x27" ++ kv.1 ++ "\x27: " ++ pyReprJ f kv.2)) ++
      "\x7d"

/-- Python `str()` as applied by the f-string to the caption value
(the fuel bound far exceeds any reachable nesting depth). -/
def pyStrJ (v : JValue) : String :=
  match v with
  | .str s => s
  | v => pyReprJ 1000000 v

/-- Iterating a JSON value and prepending `'#'` to each item
(`['#' + tag for tag in hashtags]`): lists must contain strings
(otherwise `TypeError`), iterating a string yields its characters,
iterating a dict yields its keys; other values are not iterable. -/
def iterStrs : JValue → Option (List String)
  | .arr l =>
      l.foldr
        (fun v acc =>
          match v, acc with
          | .str s, some ss => some (s :: ss)
          | _, _ => none)
        (some [])
  | .str s => some (s.data.map (fun c => String.mk [c]))
  | .obj fs => some (fs.map (fun kv => kv.1))
  | _ => none

/-- Model of `post_to_linkedin(caption, hashtags, blog_url)`.  Control flow of
the source, in order: selenium availability check, credential check,
driver start and login navigation, login-form interaction, post-login
URL check, composer opening, caption composition, text injection,
publish click, comment-box interaction, comment submit.  The first
failing step yields `success = false` with the last completed stage;
only completing the comment step returns `true`. -/
def post_to_linkedin (selenium : Bool) (email password : String)
    (caption hashtags : JValue) (p : Platform) : PubResult :=
  if !selenium then ⟨false, .init, false, none⟩
  else if email.isEmpty || password.isEmpty then ⟨false, .init, false, none⟩
  else if !p.loginFormOk then ⟨false, .init, true, none⟩
  else if !pyIn "feed" p.urlAfterLogin && !pyIn "checkpoint" p.urlAfterLogin then
    ⟨false, .init, true, none⟩
  else if !p.composerOk then ⟨false, .authenticated, true, none⟩
  else
    match iterStrs hashtags with
    | none => ⟨false, .composerOpen, true, none⟩
    | some tags =>
        let text := full_caption (pyStrJ caption) tags
        if !p.postBoxOk then ⟨false, .composerOpen, true, none⟩
        else if !p.postButtonOk then ⟨false, .composerOpen, true, some text⟩
        else if !p.commentBoxOk then ⟨false, .mainPostPublished, true, some text⟩
        else if !p.commentButtonOk then ⟨false, .mainPostPublished, true, some text⟩
        else ⟨true, .commentPosted, true, some text⟩

/-! ### Run Orchestrator (`main`) -/

/-- Process configuration (the four `os.getenv(..., "")` module
globals; an empty string models an absent setting). -/
structure Config where
  rssUrl : String
  apiKey : String
  email : String
  password : String

/-- Network / external-surface events one run can perform, in order of
occurrence. -/
inductive Ev where
  | feedFetch
  | genRequest
  | platformNav
  deriving DecidableEq

/-- Oracle inputs for one run: the feed parser's output (`none` for a
fetch/parse exception), the generation backend's reply (`none` for a
transport error), the platform surface, selenium availability, and the
wall-clock timestamp used for the record. -/
structure World where
  feed : Option (List Entry)
  genReply : Option String
  platform : Platform
  seleniumAvailable : Bool
  now : String

/-- Coarse run-level outcome of `main` (`crashed` = an uncaught
exception escaping to the scheduler shell). -/
inductive Outcome where
  | configMissing
  | noPost
  | genFailure
  | selectFailure
  | publishFailed
  | published
  | crashed
  deriving DecidableEq

/-- Everything observable about one orchestrator run: the store it
leaves behind, its outcome, its external events, the publish stage
reached, the value `post_to_linkedin` returned (when reached), and the
selected item's link (when one was selected). -/
structure RunResult where
  store : Store
  outcome : Outcome
  events : List Ev
  stage : Stage
  success : Option Bool
  link : Option String

/-- Model of `main()`: one orchestrator run.  Config checks, feed scan,
generation, selection, publish, and — only on a `True` publish
return — the dedup-store commit.  Field reads `best_variant['caption']`
/ `['hashtags']` raise `KeyError` uncaught (`crashed`), as does a
crash inside `select_best_variant`. -/
def main (cfg : Config) (w : World) (store : Store) : RunResult :=
  if cfg.rssUrl.isEmpty then ⟨store, .configMissing, [], .init, none, none⟩
  else if cfg.apiKey.isEmpty then ⟨store, .configMissing, [], .init, none, none⟩
  else
    match fetch_latest_blog_post w.feed store with
    | none => ⟨store, .noPost, [.feedFetch], .init, none, none⟩
    | some blog_post =>
        match generate_linkedin_variants w.genReply with
        | none => ⟨store, .genFailure, [.feedFetch, .genRequest], .init, none, some blog_post.link⟩
        | some variants =>
            if pyFalsy variants then
              ⟨store, .genFailure, [.feedFetch, .genRequest], .init, none, some blog_post.link⟩
            else
              match select_best_variant variants with
              | .noneR =>
                  ⟨store, .selectFailure, [.feedFetch, .genRequest], .init, none, some blog_post.link⟩
              | .crash =>
                  ⟨store, .crashed, [.feedFetch, .genRequest], .init, none, some blog_post.link⟩
              | .ok best =>
                  match best with
                  | .obj fs =>
                      (match lookupField fs "caption", lookupField fs "hashtags" with
                       | some captionV, some hashtagsV =>
                           let r := post_to_linkedin w.seleniumAvailable cfg.email cfg.password
                             captionV hashtagsV w.platform
                           let evs := [Ev.feedFetch, Ev.genRequest] ++
                             (if r.visited then [Ev.platformNav] else [])
                           if r.success then
                             ⟨save_posted_article store blog_post.link w.now blog_post.title
                                 ((lookupField fs "type").getD .null),
                              .published, evs, r.stage, some true, some blog_post.link⟩
                           else
                             ⟨store, .publishFailed, evs, r.stage, some false, some blog_post.link⟩
                       | _, _ =>
                           ⟨store, .crashed, [.feedFetch, .genRequest], .init, none, some blog_post.link⟩)
                  | _ =>
                      ⟨store, .crashed, [.feedFetch, .genRequest], .init, none, some blog_post.link⟩

/-! ### Specification-side reference definitions

These follow the spec's words (not the source) and are used to compare
the source-derived functions against the specified behaviour. -/

/-- Earliest element attaining the maximal `scoreKey` (the spec's
"sort descending by score; tie-break by original ordering"): an
earlier element beats a later one of equal key. -/
def firstMaxByScore : List JValue → Option JValue
  | [] => none
  | x :: xs =>
      match firstMaxByScore xs with
      | none => some x
      | some m => if scoreKey m ≤ scoreKey x then some x else some m

/-- Is the value an array of strings? -/
def isStrArr : JValue → Bool
  | .arr l => l.all (fun v => match v with | .str _ => true | _ => false)
  | _ => false

/-- Candidate well-formedness per the spec's required candidate shape
for a given style tag: text, hashtags, integer score, rationale. -/
def requiredCandidate (tag : String) (v : JValue) : Bool :=
  match v with
  | .obj fs =>
      (match lookupField fs "type" with | some (.str t) => t == tag | _ => false)
      && (match lookupField fs "caption" with | some (.str _) => true | _ => false)
      && (match lookupField fs "hashtags" with | some h => isStrArr h | _ => false)
      && (match lookupField fs "engagement_score" with | some (.num _) => true | _ => false)
      && (match lookupField fs "why_it_works" with | some (.str _) => true | _ => false)
  | _ => false

/-- The spec's required candidate-set shape for a whole generation
response: after fence stripping it parses to an object whose
`variants` member is one object per style tag, in the prompt's fixed
order, each with text, hashtags, integer score and rationale. -/
def requiredCandidateShape (text : String) : Bool :=
  match parseJson (cleanGeneratedText text) with
  | some (.obj fs) =>
      (match lookupField fs "variants" with
       | some (.arr [v1, v2, v3]) =>
           requiredCandidate "personal_story" v1
             && requiredCandidate "question_interrupt" v2
             && requiredCandidate "contrarian_hook" v3
       | _ => false)
  | _ => false

/-- Well-formedness a candidate needs for `select_best_variant` to
treat it per contract: a dict with a numeric score and with the two
other fields the success log reads. -/
def wfCandidate (v : JValue) : Bool :=
  match v with
  | .obj fs =>
      (lookupField fs "type").isSome
      && (match lookupField fs "engagement_score" with | some (.num _) => true | _ => false)
      && (lookupField fs "why_it_works").isSome
  | _ => false

/-- Candidate that is a dict but has no score field. -/
def lacksScore : JValue → Bool
  | .obj fs => (lookupField fs "engagement_score").isNone
  | _ => false

/-! ### Concrete fixtures for witnesses and counterexamples -/

/-- A well-formed candidate object. -/
def cand (tag cap htag : String) (score : Int) (why : String) : JValue :=
  .obj [("type", .str tag), ("caption", .str cap), ("hashtags", .arr [.str htag]),
        ("engagement_score", .num score), ("why_it_works", .str why)]

/-- A fence-wrapped generation reply with the three contract variants
(scores 85 / 90 / 88). -/
def vtext : String :=
  "```json\n\x7b\"variants\": [\x7b\"type\": \"personal_story\", \"caption\": \"A\", \"hashtags\": [\"AI\"], \"engagement_score\": 85, \"why_it_works\": \"w1\"\x7d, \x7b\"type\": \"question_interrupt\", \"caption\": \"B\", \"hashtags\": [\"Lead\"], \"engagement_score\": 90, \"why_it_works\": \"w2\"\x7d, \x7b\"type\": \"contrarian_hook\", \"caption\": \"C\", \"hashtags\": [\"Edu\"], \"engagement_score\": 88, \"why_it_works\": \"w3\"\x7d]\x7d\n```"

/-- A reply that is valid JSON with a `variants` list whose only
candidate has none of the required fields except `type`. -/
def badShapeText : String :=
  "\x7b\"variants\": [\x7b\"type\": \"x\"\x7d]\x7d"

/-- A reply that is not JSON at all. -/
def nonJsonText : String :=
  "Sorry, here are three great caption ideas:"

/-- A platform surface on which every UI step succeeds. -/
def platOK : Platform :=
  ⟨true, "https://www.linkedin.com/feed/", true, true, true, true, true⟩

/-- The same surface but the comment box lookup fails after the main
post is published. -/
def platCommentFail : Platform :=
  { platOK with commentBoxOk := false }

/-- A fully-populated configuration. -/
def cfgOK : Config :=
  ⟨"https://example.com/rss", "sk-key", "user@example.com", "hunter2"⟩

/-- The same configuration with the platform username absent. -/
def cfgNoEmail : Config :=
  { cfgOK with email := "" }

/-- One fresh feed entry. -/
def entryA : Entry :=
  ⟨some "https://example.com/blog/post-1", some "Post One", some "2024-01-01",
   some "Sum", some (some "Content")⟩

/-- A second fresh feed entry. -/
def entryB : Entry :=
  ⟨some "https://example.com/blog/post-2", some "Post Two", some "2024-01-03",
   some "Sum2", none⟩

/-- World in which every external step succeeds. -/
def wOK : World :=
  ⟨some [entryA], some vtext, platOK, true, "2024-01-02T00:00:00"⟩

/-- Successful world except the comment step fails. -/
def wCommentFail : World :=
  { wOK with platform := platCommentFail }

/-- Successful world except the generation reply is malformed JSON
with the wrong inner shape. -/
def wBadShape : World :=
  { wOK with genReply := some badShapeText }

/-- Successful world except the generation reply is not JSON. -/
def wBadGen : World :=
  { wOK with genReply := some nonJsonText }

/-- A reply that is valid JSON but not an object (a bare array), so
the `variants` subscript raises. -/
def notObjText : String :=
  "[1, 2]"

/-- Successful world except the generation reply parses to a non-dict. -/
def wNotObj : World :=
  { wOK with genReply := some notObjText }

/-- A candidate dict lacking the score field. -/
def candNoScore : JValue :=
  .obj [("type", .str "no_score"), ("caption", .str "N"), ("hashtags", .arr [.str "T"]),
        ("why_it_works", .str "w0")]

/-! ### Dedup Store lemmas -/

lemma is_already_posted_iff (u : String) (s : Store) :
    is_already_posted u s = true ↔ get_article_hash u ∈ s.map Prod.fst := by
  simp only [is_already_posted, List.any_eq_true, List.mem_map, beq_iff_eq]

lemma mem_keys_storePut_self (s : Store) (h : String) (i : PostedInfo) :
    h ∈ (storePut s h i).map Prod.fst := by
  induction s with
  | nil => simp [storePut]
  | cons kv rest ih =>
      by_cases hk : kv.1 == h
      · simp [storePut, hk]
      · simp only [storePut, hk]
        simp only [if_false, Bool.false_eq_true, List.map_cons, List.mem_cons]
        exact Or.inr ih

lemma mem_keys_storePut_of_mem (s : Store) (h x : String) (i : PostedInfo)
    (hx : x ∈ s.map Prod.fst) : x ∈ (storePut s h i).map Prod.fst := by
  induction s with
  | nil => simp at hx
  | cons kv rest ih =>
      simp only [List.map_cons, List.mem_cons] at hx
      by_cases hk : kv.1 == h
      · rcases hx with hx | hx
        · have hkh : kv.1 = h := by simpa using hk
          simp [storePut, hk, hx, hkh]
        · simp only [storePut, hk, if_true, List.map_cons, List.mem_cons]
          exact Or.inr hx
      · rcases hx with hx | hx
        · simp [storePut, hk, hx]
        · simp only [storePut, hk]
          simp only [if_false, Bool.false_eq_true, List.map_cons, List.mem_cons]
          exact Or.inr (ih hx)

lemma storePut_keys_indep (s : Store) (h : String) (i1 i2 : PostedInfo) :
    (storePut s h i1).map Prod.fst = (storePut s h i2).map Prod.fst := by
  induction s with
  | nil => rfl
  | cons kv rest ih =>
      by_cases hk : kv.1 == h
      · simp [storePut, hk]
      · simp only [storePut, hk]
        simp only [if_false, Bool.false_eq_true, List.map_cons]
        rw [ih]

lemma is_already_posted_save_self (s : Store) (u now title : String) (v : JValue) :
    is_already_posted u (save_posted_article s u now title v) = true := by
  rw [save_posted_article, is_already_posted_iff]
  exact mem_keys_storePut_self s (get_article_hash u) _

lemma is_already_posted_save_mono (s : Store) (x u now title : String) (v : JValue)
    (hx : is_already_posted x s = true) :
    is_already_posted x (save_posted_article s u now title v) = true := by
  rw [is_already_posted_iff] at hx
  rw [save_posted_article, is_already_posted_iff]
  exact mem_keys_storePut_of_mem s (get_article_hash u) _ _ hx

/-! ### Sorting lemmas -/

lemma insertDesc_ne_nil (x : JValue) (l : List JValue) : insertDesc x l ≠ [] := by
  cases l with
  | nil => simp [insertDesc]
  | cons y ys => simp only [insertDesc]; split <;> simp

lemma head?_insertDesc (x y : JValue) (ys : List JValue) :
    (insertDesc x (y :: ys)).head? = some (if scoreKey y ≤ scoreKey x then x else y) := by
  simp only [insertDesc]
  split <;> simp_all

lemma sortByScoreDesc_eq_nil_iff (l : List JValue) :
    sortByScoreDesc l = [] ↔ l = [] := by
  cases l with
  | nil => simp [sortByScoreDesc]
  | cons x xs =>
      simp only [sortByScoreDesc, List.foldr_cons]
      exact ⟨fun h => absurd h (insertDesc_ne_nil x _), fun h => by simp at h⟩

lemma head?_sortByScoreDesc (l : List JValue) :
    (sortByScoreDesc l).head? = firstMaxByScore l := by
  induction l with
  | nil => rfl
  | cons x xs ih =>
      show (insertDesc x (sortByScoreDesc xs)).head? = _
      rcases hxs : sortByScoreDesc xs with _ | ⟨y, ys⟩
      · have hx : xs = [] := (sortByScoreDesc_eq_nil_iff xs).1 hxs
        subst hx
        simp [insertDesc, firstMaxByScore]
      · rw [head?_insertDesc]
        have hfm : firstMaxByScore xs = some y := by
          rw [← ih, hxs]; rfl
        simp only [firstMaxByScore, hfm]
        rw [apply_ite some]

lemma firstMaxByScore_mem (l : List JValue) (b : JValue)
    (h : firstMaxByScore l = some b) : b ∈ l := by
  induction l generalizing b with
  | nil => simp [firstMaxByScore] at h
  | cons x xs ih =>
      rcases hxs : firstMaxByScore xs with _ | m
      · simp only [firstMaxByScore, hxs, Option.some.injEq] at h
        simp [h]
      · simp only [firstMaxByScore, hxs] at h
        by_cases hle : scoreKey m ≤ scoreKey x
        · rw [if_pos hle] at h
          simp only [Option.some.injEq] at h
          simp [h]
        · rw [if_neg hle] at h
          simp only [Option.some.injEq] at h
          subst h
          exact List.mem_cons_of_mem x (ih _ hxs)

lemma firstMaxByScore_isSome (l : List JValue) (h : l ≠ []) :
    ∃ b, firstMaxByScore l = some b := by
  cases l with
  | nil => simp at h
  | cons x xs =>
      rcases hxs : firstMaxByScore xs with _ | m
      · exact ⟨x, by simp [firstMaxByScore, hxs]⟩
      · refine ⟨if scoreKey m ≤ scoreKey x then x else m, ?_⟩
        simp only [firstMaxByScore, hxs]
        rw [apply_ite some]

lemma firstMaxByScore_ge (l : List JValue) (b : JValue)
    (h : firstMaxByScore l = some b) : ∀ c ∈ l, scoreKey c ≤ scoreKey b := by
  induction l generalizing b with
  | nil => simp
  | cons x xs ih =>
      intro c hc
      rcases hxs : firstMaxByScore xs with _ | m
      · simp only [firstMaxByScore, hxs, Option.some.injEq] at h
        have hxnil : xs = [] := by
          cases xs with
          | nil => rfl
          | cons z zs =>
              exfalso
              rcases firstMaxByScore_isSome (z :: zs) (by simp) with ⟨b2, hb2⟩
              rw [hxs] at hb2
              exact Option.noConfusion hb2
        subst hxnil
        rcases List.mem_singleton.1 hc with rfl
        rw [h]
      · simp only [firstMaxByScore, hxs] at h
        have hmle := ih m hxs
        by_cases hle : scoreKey m ≤ scoreKey x
        · rw [if_pos hle] at h
          simp only [Option.some.injEq] at h
          subst h
          rcases List.mem_cons.1 hc with rfl | hcm
          · exact le_refl _
          · exact le_trans (hmle c hcm) hle
        · rw [if_neg hle] at h
          simp only [Option.some.injEq] at h
          subst h
          rcases List.mem_cons.1 hc with rfl | hcm
          · omega
          · exact hmle c hcm

/-! ### Selection lemmas -/

lemma wfCandidate_parts (v : JValue) (h : wfCandidate v = true) :
    ∃ fs, v = .obj fs ∧ (lookupField fs "type").isSome = true
      ∧ (∃ n : Int, lookupField fs "engagement_score" = some (.num n))
      ∧ (lookupField fs "why_it_works").isSome = true := by
  cases v with
  | obj fs =>
      simp only [wfCandidate, Bool.and_eq_true] at h
      obtain ⟨⟨h1, h2⟩, h3⟩ := h
      refine ⟨fs, rfl, h1, ?_, h3⟩
      rcases hl : lookupField fs "engagement_score" with _ | j
      · rw [hl] at h2; simp at h2
      · rw [hl] at h2
        cases j with
        | num n => exact ⟨n, rfl⟩
        | null => simp at h2
        | bool b => simp at h2
        | fnum fl => simp at h2
        | str s => simp at h2
        | arr el => simp at h2
        | obj fs2 => simp at h2
  | null => simp [wfCandidate] at h
  | bool b => simp [wfCandidate] at h
  | num n => simp [wfCandidate] at h
  | fnum fl => simp [wfCandidate] at h
  | str s => simp [wfCandidate] at h
  | arr el => simp [wfCandidate] at h

lemma wfCandidate_isObj (v : JValue) (h : wfCandidate v = true) : isObj v = true := by
  obtain ⟨fs, rfl, -, -, -⟩ := wfCandidate_parts v h
  rfl

lemma wfCandidate_scoreNumeric (v : JValue) (h : wfCandidate v = true) :
    scoreIsNumeric v = true := by
  obtain ⟨fs, rfl, -, ⟨n, hn⟩, -⟩ := wfCandidate_parts v h
  simp [scoreIsNumeric, hn]

lemma select_best_variant_wf (l : List JValue) (hne : l ≠ [])
    (hwf : ∀ v ∈ l, wfCandidate v = true) :
    ∃ b, select_best_variant (.arr l) = .ok b ∧ firstMaxByScore l = some b := by
  obtain ⟨b, hb⟩ := firstMaxByScore_isSome l hne
  have hbmem := firstMaxByScore_mem l b hb
  obtain ⟨fs, hfs, ht, ⟨n, hn⟩, hw⟩ := wfCandidate_parts b (hwf b hbmem)
  have hfal : pyFalsy (.arr l) = false := by
    simp only [pyFalsy, List.isEmpty_eq_false]
    exact hne
  have hobj : l.all isObj = true :=
    List.all_eq_true.2 (fun v hv => wfCandidate_isObj v (hwf v hv))
  have hnum : l.all scoreIsNumeric = true :=
    List.all_eq_true.2 (fun v hv => wfCandidate_scoreNumeric v (hwf v hv))
  have hsne : sortByScoreDesc l ≠ [] :=
    fun hc => hne ((sortByScoreDesc_eq_nil_iff l).1 hc)
  rcases hsort : sortByScoreDesc l with _ | ⟨best, rest⟩
  · exact absurd hsort hsne
  have hhead : best = b := by
    have hh := head?_sortByScoreDesc l
    rw [hsort, hb] at hh
    simpa using hh
  subst hhead
  refine ⟨best, ?_, hb⟩
  rw [hfs]
  rw [hfs] at hsort
  simp [select_best_variant, hfal, hobj, hnum, hsort, ht, hn, hw]

lemma select_best_variant_ne_noneR (x : JValue) (xs : List JValue) :
    select_best_variant (.arr (x :: xs)) ≠ .noneR := by
  have hfal : pyFalsy (.arr (x :: xs)) = false := by
    simp [pyFalsy]
  simp only [select_best_variant, hfal, Bool.false_eq_true, if_false]
  split
  · split
    · simp
    · split
      · split <;> simp
      · simp
  · simp

/-! ### Publish-driver lemmas -/

lemma iterStrs_map_str (l : List String) :
    iterStrs (.arr (l.map JValue.str)) = some l := by
  induction l with
  | nil => rfl
  | cons s rest ih =>
      simp only [iterStrs, List.map_cons, List.foldr_cons]
      simp only [iterStrs] at ih
      rw [ih]

lemma post_to_linkedin_no_creds (sel : Bool) (email pw : String) (c h : JValue)
    (p : Platform) (hcred : email.isEmpty = true ∨ pw.isEmpty = true) :
    post_to_linkedin sel email pw c h p = ⟨false, .init, false, none⟩ := by
  cases sel with
  | false => rfl
  | true =>
      rcases hcred with hc | hc <;>
        simp [post_to_linkedin, hc]

/-! ### Orchestrator case analysis -/

lemma main_spec (cfg : Config) (w : World) (store : Store) :
    ((main cfg w store).store = store ∧ (main cfg w store).success ≠ some true
      ∧ (main cfg w store).outcome ≠ .published)
    ∨ (∃ u t vu, (main cfg w store).success = some true
        ∧ (main cfg w store).outcome = .published
        ∧ (main cfg w store).link = some u
        ∧ (main cfg w store).store = save_posted_article store u w.now t vu
        ∧ cfg.rssUrl.isEmpty = false ∧ cfg.apiKey.isEmpty = false) := by
  by_cases h1 : cfg.rssUrl.isEmpty
  · left; simp [main, h1]
  simp only [Bool.not_eq_true] at h1
  by_cases h2 : cfg.apiKey.isEmpty
  · left; simp [main, h1, h2]
  simp only [Bool.not_eq_true] at h2
  rcases hf : fetch_latest_blog_post w.feed store with _ | blog_post
  · left; simp [main, h1, h2, hf]
  rcases hg : generate_linkedin_variants w.genReply with _ | variants
  · left; simp [main, h1, h2, hf, hg]
  by_cases hfal : pyFalsy variants = true
  · left; simp [main, h1, h2, hf, hg, hfal]
  simp only [Bool.not_eq_true] at hfal
  cases hs : select_best_variant variants with
  | noneR => left; simp [main, h1, h2, hf, hg, hfal, hs]
  | crash => left; simp [main, h1, h2, hf, hg, hfal, hs]
  | ok best =>
      cases best with
      | null => left; simp [main, h1, h2, hf, hg, hfal, hs]
      | bool b => left; simp [main, h1, h2, hf, hg, hfal, hs]
      | num nn => left; simp [main, h1, h2, hf, hg, hfal, hs]
      | fnum fl => left; simp [main, h1, h2, hf, hg, hfal, hs]
      | str st => left; simp [main, h1, h2, hf, hg, hfal, hs]
      | arr el => left; simp [main, h1, h2, hf, hg, hfal, hs]
      | obj fs =>
          rcases hcap : lookupField fs "caption" with _ | capV
          · left; simp [main, h1, h2, hf, hg, hfal, hs, hcap]
          rcases hht : lookupField fs "hashtags" with _ | htV
          · left; simp [main, h1, h2, hf, hg, hfal, hs, hcap, hht]
          cases hr : (post_to_linkedin w.seleniumAvailable cfg.email cfg.password capV htV
              w.platform).success with
          | false => left; simp [main, h1, h2, hf, hg, hfal, hs, hcap, hht, hr]
          | true =>
              right
              refine ⟨blog_post.link, blog_post.title, (lookupField fs "type").getD .null,
                ?_, ?_, ?_, ?_, h1, h2⟩ <;>
                simp [main, h1, h2, hf, hg, hfal, hs, hcap, hht, hr]

/-! ## Claim theorems -/

/-- C1: for every run of the orchestrator, a PublicationRecord for the
selected item's fingerprint is written to the Dedup Store iff the
publish step reported success.  On a `True` return from the driver the
final store is exactly the input store with the item's record
upserted — so the fingerprint is present when the run ends — and on a
publish failure or any earlier abort (missing config, empty feed,
generation failure, selection failure, uncaught error) the store is
returned unchanged and the run is not reported as published. -/
theorem commit_iff_publish_success (cfg : Config) (w : World) (store : Store) :
    ((main cfg w store).success = some true →
      ∃ u t vu, (main cfg w store).link = some u
        ∧ (main cfg w store).store = save_posted_article store u w.now t vu
        ∧ is_already_posted u (main cfg w store).store = true
        ∧ (main cfg w store).outcome = .published)
    ∧ ((main cfg w store).success ≠ some true →
      (main cfg w store).store = store ∧ (main cfg w store).outcome ≠ .published) := by
  rcases main_spec cfg w store with ⟨hs, hns, hnp⟩ |
    ⟨u, t, vu, hsucc, hout, hlink, hstore, -, -⟩
  · exact ⟨fun h => absurd h hns, fun _ => ⟨hs, hnp⟩⟩
  · refine ⟨fun _ => ⟨u, t, vu, hlink, hstore, ?_, hout⟩, fun h => absurd hsucc h⟩
    rw [hstore]
    exact is_already_posted_save_self store u w.now t vu

/-- Witness for C1 at concrete inputs: a fully successful run commits
the record for the published URL, and a run whose generation reply is
not JSON leaves the store unchanged. -/
theorem commit_iff_publish_success_check :
    (∃ u t vu, (main cfgOK wOK []).link = some u
      ∧ (main cfgOK wOK []).store = save_posted_article [] u wOK.now t vu
      ∧ is_already_posted u (main cfgOK wOK []).store = true
      ∧ (main cfgOK wOK []).outcome = .published)
    ∧ ((main cfgOK wBadGen []).store = [] ∧ (main cfgOK wBadGen []).outcome ≠ .published) :=
  ⟨(commit_iff_publish_success cfgOK wOK []).1 rfl,
   (commit_iff_publish_success cfgOK wBadGen []).2
     (by rw [show (main cfgOK wBadGen []).success = none from rfl]; simp)⟩

/-- C2: evaluating the code at the failing input — every step succeeds
up to the main-post publish, then the comment-box lookup raises.  The
driver's generic handler returns `False`, so the orchestrator reports
a publish failure and writes no PublicationRecord, although the main
post is live (stage `mainPostPublished`); the next run will publish a
duplicate.  This contradicts the specified behaviour (commit the
record regardless of comment-step outcome, log the comment failure
distinctly). -/
theorem comment_failure_prevents_commit :
    (main cfgOK wCommentFail []).stage = .mainPostPublished
    ∧ (main cfgOK wCommentFail []).success = some false
    ∧ (main cfgOK wCommentFail []).store = []
    ∧ (main cfgOK wCommentFail []).outcome = .publishFailed :=
  ⟨rfl, rfl, rfl, rfl⟩

/-- C4: the Feed Scanner returns `none` when the feed could not be
retrieved, returns `none` exactly when every entry (vacuously, an
empty feed) is already recorded, and returns `some p` exactly when `p`
is built from the first entry in feed order whose URL fingerprint is
absent from the store — every earlier entry being recorded. -/
theorem fetch_returns_first_unposted (store : Store) :
    fetch_latest_blog_post none store = none
    ∧ (∀ entries, fetch_latest_blog_post (some entries) store = none
        ↔ ∀ e ∈ entries, is_already_posted (e.link.getD "") store = true)
    ∧ (∀ entries p, fetch_latest_blog_post (some entries) store = some p
        ↔ ∃ pre e post, entries = pre ++ e :: post
            ∧ p = mkPostData e
            ∧ is_already_posted (e.link.getD "") store = false
            ∧ ∀ e2 ∈ pre, is_already_posted (e2.link.getD "") store = true) := by
  refine ⟨rfl, ?_, ?_⟩
  · intro entries
    simp [fetch_latest_blog_post, Option.map_eq_none', List.find?_eq_none]
  · intro entries p
    simp only [fetch_latest_blog_post, Option.map_eq_some']
    constructor
    · rintro ⟨e, hfind, rfl⟩
      obtain ⟨hpe, pre, post, rfl, hpre⟩ := List.find?_eq_some.1 hfind
      refine ⟨pre, e, post, rfl, rfl, ?_, ?_⟩
      · simpa using hpe
      · intro e2 he2
        simpa using hpre e2 he2
    · rintro ⟨pre, e, post, rfl, rfl, he, hpre⟩
      refine ⟨e, List.find?_eq_some.2 ⟨by simpa using he, pre, post, rfl, ?_⟩, rfl⟩
      intro e2 he2
      simpa using hpre e2 he2

/-- Witness for C4: on a one-entry feed over the empty store the
scanner returns that entry's post data. -/
theorem fetch_returns_first_unposted_check :
    fetch_latest_blog_post (some [entryA]) [] = some (mkPostData entryA) :=
  ((fetch_returns_first_unposted []).2.2 [entryA] (mkPostData entryA)).mpr
    ⟨[], entryA, [], rfl, rfl, rfl, by simp⟩

/-- C9: the fingerprint is a function of the item's canonical URL
alone: two PostData records with the same link but arbitrary other
fields yield the same fingerprint; the store keys produced by a commit
are independent of title and variant metadata, and the committed URL is
found again afterwards; and the function is the fixed MD5 digest
(stable across runs — it is a pure function of the URL), checked on
two reference vectors. -/
theorem fingerprint_depends_only_on_url :
    (∀ (l t1 p1 s1 c1 t2 p2 s2 c2 : String),
      get_article_hash (PostData.mk t1 l p1 s1 c1).link
        = get_article_hash (PostData.mk t2 l p2 s2 c2).link)
    ∧ (∀ (s : Store) (u now t1 t2 : String) (v1 v2 : JValue),
        is_already_posted u (save_posted_article s u now t1 v1) = true
        ∧ (save_posted_article s u now t1 v1).map Prod.fst
            = (save_posted_article s u now t2 v2).map Prod.fst)
    ∧ get_article_hash "" = "d41d8cd98f00b204e9800998ecf8427e"
    ∧ get_article_hash "abc" = "900150983cd24fb0d6963f7d28e17f72" := by
  refine ⟨fun _ _ _ _ _ _ _ _ _ => rfl, ?_, rfl, rfl⟩
  intro s u now t1 t2 v1 v2
  refine ⟨is_already_posted_save_self s u now t1 v1, ?_⟩
  simp only [save_posted_article]
  exact storePut_keys_indep s (get_article_hash u) _ _


/-- C3: idempotence.  If a run over feed `entries` publishes an item
with link `u`, and every entry of the feed is either that item or was
already recorded beforehand, then a second run over the same feed
(against the store the first run left) observes every fingerprint as
recorded, takes the no-op path, publishes nothing and writes nothing. -/
theorem second_run_is_noop (cfg : Config) (w w2 : World) (store : Store)
    (entries : List Entry) (u : String)
    (hw2 : w2.feed = some entries)
    (hsucc : (main cfg w store).success = some true)
    (hlink : (main cfg w store).link = some u)
    (hcov : ∀ e ∈ entries, e.link.getD "" = u
        ∨ is_already_posted (e.link.getD "") store = true) :
    (main cfg w2 (main cfg w store).store).outcome = .noPost
    ∧ (main cfg w2 (main cfg w store).store).store = (main cfg w store).store
    ∧ (main cfg w2 (main cfg w store).store).success = none := by
  rcases main_spec cfg w store with ⟨-, hns, -⟩ |
    ⟨u2, t, vu, -, -, hlink2, hstore, h1, h2⟩
  · exact absurd hsucc hns
  have huu : u2 = u := by
    rw [hlink2] at hlink
    simpa using hlink
  subst huu
  have hall : ∀ e ∈ entries,
      is_already_posted (e.link.getD "") (main cfg w store).store = true := by
    intro e he
    rw [hstore]
    rcases hcov e he with hl | hp
    · rw [hl]
      exact is_already_posted_save_self store u2 w.now t vu
    · exact is_already_posted_save_mono store _ u2 w.now t vu hp
  have hfetch : fetch_latest_blog_post w2.feed (main cfg w store).store = none := by
    rw [hw2]
    simp only [fetch_latest_blog_post, Option.map_eq_none', List.find?_eq_none]
    intro e he
    simp [hall e he]
  generalize hgen : (main cfg w store).store = st1 at hfetch ⊢
  refine ⟨?_, ?_, ?_⟩ <;> simp [main, h1, h2, hfetch]

/-- Witness for C3: the first run over the one-entry feed publishes
and records it; the second identical run is a no-op. -/
theorem second_run_is_noop_check :
    (main cfgOK wOK (main cfgOK wOK []).store).outcome = .noPost
    ∧ (main cfgOK wOK (main cfgOK wOK []).store).store = (main cfgOK wOK []).store
    ∧ (main cfgOK wOK (main cfgOK wOK []).store).success = none :=
  second_run_is_noop cfgOK wOK wOK [] [entryA] "https://example.com/blog/post-1"
    rfl rfl rfl
    (by
      intro e he
      rw [List.mem_singleton] at he
      subst he
      exact Or.inl rfl)

/-- C5 counterexample: a generation reply that is valid JSON with a
`variants` list whose single candidate has none of the required fields
except the style tag.  It does not satisfy the required candidate-set
shape, yet `generate_linkedin_variants` accepts it and returns the
partial candidate instead of failing; the run then ends in an uncaught
crash inside selection, not in a generation-failure outcome.  This
refutes the claim that every response not parseable into the required
shape yields a generation failure with no partial-candidate
recovery. -/
theorem unvalidated_shape_accepted :
    requiredCandidateShape badShapeText = false
    ∧ generate_linkedin_variants (some badShapeText)
        = some (.arr [.obj [("type", .str "x")]])
    ∧ (main cfgOK wBadShape []).outcome = .crashed
    ∧ ¬ (main cfgOK wBadShape []).outcome = .genFailure := by
  refine ⟨rfl, rfl, rfl, ?_⟩
  rw [show (main cfgOK wBadShape []).outcome = .crashed from rfl]
  simp

/-- C5 amended: when the generation reply's text (after the markdown
code-fence stripping, which happens before parsing) is not valid JSON,
or parses to a value that is not an object with a sized `variants`
member — or the call itself fails — the run aborts with a
generation-failure outcome and the Dedup Store is not mutated.  The
source does not validate the inner candidate-set shape: valid JSON
with a sized `variants` member is accepted whatever the candidates
look like (see the counterexample).  The second conjunct shows a
fence-wrapped payload being stripped to the bare payload. -/
theorem unparseable_generation_aborts_run :
    (∀ (cfg : Config) (w : World) (store : Store) (p : PostData),
      cfg.rssUrl.isEmpty = false → cfg.apiKey.isEmpty = false →
      fetch_latest_blog_post w.feed store = some p →
      (∀ text, w.genReply = some text →
        parseJson (cleanGeneratedText text) = none
        ∨ ∃ v, parseJson (cleanGeneratedText text) = some v ∧ hasSizedVariants v = false) →
      (main cfg w store).outcome = .genFailure ∧ (main cfg w store).store = store)
    ∧ cleanGeneratedText "```json\n\x7b\"a\": 1\x7d\n```" = "\x7b\"a\": 1\x7d" := by
  constructor
  · intro cfg w store p h1 h2 hf htext
    have hg : generate_linkedin_variants w.genReply = none := by
      rcases hw : w.genReply with _ | text
      · rfl
      · rcases htext text hw with hnone | ⟨v, hv, hshape⟩
        · simp [generate_linkedin_variants, hnone]
        · cases v with
          | obj fs =>
              rcases hvv : lookupField fs "variants" with _ | vv
              · simp [generate_linkedin_variants, hv, hvv]
              · have hlen : (pyLen vv).isSome = false := by
                  simpa [hasSizedVariants, hvv] using hshape
                simp [generate_linkedin_variants, hv, hvv, hlen]
          | null => simp [generate_linkedin_variants, hv]
          | bool b => simp [generate_linkedin_variants, hv]
          | num n => simp [generate_linkedin_variants, hv]
          | fnum fl => simp [generate_linkedin_variants, hv]
          | str st => simp [generate_linkedin_variants, hv]
          | arr el => simp [generate_linkedin_variants, hv]
    exact ⟨by simp [main, h1, h2, hf, hg], by simp [main, h1, h2, hf, hg]⟩
  · rfl

/-- Witness for C5 at concrete inputs: a non-JSON reply, and a
valid-JSON reply that is a bare array rather than an object with a
`variants` member, each make the run end in a generation failure with
the store untouched. -/
theorem unparseable_generation_aborts_run_check :
    ((main cfgOK wBadGen []).outcome = .genFailure ∧ (main cfgOK wBadGen []).store = [])
    ∧ ((main cfgOK wNotObj []).outcome = .genFailure ∧ (main cfgOK wNotObj []).store = []) :=
  ⟨unparseable_generation_aborts_run.1 cfgOK wBadGen [] (mkPostData entryA) rfl rfl rfl
     (by
       intro text ht
       have htext : text = nonJsonText := by
         rw [show wBadGen.genReply = some nonJsonText from rfl] at ht
         simpa using ht.symm
       rw [htext]
       exact Or.inl rfl),
   unparseable_generation_aborts_run.1 cfgOK wNotObj [] (mkPostData entryA) rfl rfl rfl
     (by
       intro text ht
       have htext : text = notObjText := by
         rw [show wNotObj.genReply = some notObjText from rfl] at ht
         simpa using ht.symm
       rw [htext]
       exact Or.inr ⟨.arr [.num 1, .num 2], rfl, rfl⟩)⟩

/-- C6 counterexample: with the platform username absent (but feed URL
and generation credential present) the run does not abort at startup:
it performs the feed fetch and the generation request before the
publish step fails on the credential check.  This refutes the claim
that absence of any one of the four settings aborts the run before any
network call. -/
theorem missing_platform_creds_still_fetches :
    cfgNoEmail.email = ""
    ∧ (main cfgNoEmail wOK []).events = [.feedFetch, .genRequest]
    ∧ ¬ (main cfgNoEmail wOK []).events = []
    ∧ (main cfgNoEmail wOK []).outcome = .publishFailed := by
  refine ⟨rfl, rfl, ?_, rfl⟩
  rw [show (main cfgNoEmail wOK []).events = [.feedFetch, .genRequest] from rfl]
  simp

/-- C6 amended: absence of the feed URL or of the generation
credential is checked at startup and aborts the run before any
network call with the store untouched; absence of the platform
username or credential is detected only inside the publish step — the
feed fetch and generation request may already have happened — but the
driver then returns before any platform navigation, the run cannot be
reported as a successful publish, and no record is written. -/
theorem config_absence_handling (cfg : Config) (w : World) (store : Store) :
    ((cfg.rssUrl.isEmpty = true ∨ cfg.apiKey.isEmpty = true) →
      main cfg w store = ⟨store, .configMissing, [], .init, none, none⟩)
    ∧ ((cfg.email.isEmpty = true ∨ cfg.password.isEmpty = true) →
      (main cfg w store).store = store
      ∧ (main cfg w store).success ≠ some true
      ∧ Ev.platformNav ∉ (main cfg w store).events) := by
  constructor
  · rintro (h | h)
    · simp [main, h]
    · by_cases h1 : cfg.rssUrl.isEmpty
      · simp [main, h1]
      · simp only [Bool.not_eq_true] at h1
        simp [main, h1, h]
  · intro hcred
    by_cases h1 : cfg.rssUrl.isEmpty
    · simp [main, h1]
    simp only [Bool.not_eq_true] at h1
    by_cases h2 : cfg.apiKey.isEmpty
    · simp [main, h1, h2]
    simp only [Bool.not_eq_true] at h2
    rcases hf : fetch_latest_blog_post w.feed store with _ | blog_post
    · simp [main, h1, h2, hf]
    rcases hg : generate_linkedin_variants w.genReply with _ | variants
    · simp [main, h1, h2, hf, hg]
    by_cases hfal : pyFalsy variants = true
    · simp [main, h1, h2, hf, hg, hfal]
    simp only [Bool.not_eq_true] at hfal
    cases hs : select_best_variant variants with
    | noneR => simp [main, h1, h2, hf, hg, hfal, hs]
    | crash => simp [main, h1, h2, hf, hg, hfal, hs]
    | ok best =>
        cases best with
        | null => simp [main, h1, h2, hf, hg, hfal, hs]
        | bool b => simp [main, h1, h2, hf, hg, hfal, hs]
        | num nn => simp [main, h1, h2, hf, hg, hfal, hs]
        | fnum fl => simp [main, h1, h2, hf, hg, hfal, hs]
        | str st => simp [main, h1, h2, hf, hg, hfal, hs]
        | arr el => simp [main, h1, h2, hf, hg, hfal, hs]
        | obj fs =>
            rcases hcap : lookupField fs "caption" with _ | capV
            · simp [main, h1, h2, hf, hg, hfal, hs, hcap]
            rcases hht : lookupField fs "hashtags" with _ | htV
            · simp [main, h1, h2, hf, hg, hfal, hs, hcap, hht]
            have hpost := post_to_linkedin_no_creds w.seleniumAvailable cfg.email
              cfg.password capV htV w.platform hcred
            simp [main, h1, h2, hf, hg, hfal, hs, hcap, hht, hpost]

/-- Witness for C6 at concrete inputs: with a missing feed URL the run
performs no events and changes nothing; with a missing platform
username the run never navigates to the platform and commits
nothing. -/
theorem config_absence_handling_check :
    main { cfgOK with rssUrl := "" } wOK []
      = ⟨[], .configMissing, [], .init, none, none⟩
    ∧ ((main cfgNoEmail wOK []).store = []
      ∧ (main cfgNoEmail wOK []).success ≠ some true
      ∧ Ev.platformNav ∉ (main cfgNoEmail wOK []).events) :=
  ⟨(config_absence_handling { cfgOK with rssUrl := "" } wOK []).1 (Or.inl rfl),
   (config_absence_handling cfgNoEmail wOK []).2 (Or.inl rfl)⟩


/-- C7: the Variant Selector returns no candidate iff the list is
empty; for a non-empty list of well-formed candidates it returns the
candidate with the highest score, with ties resolved in favour of the
earliest-listed candidate (the characterisation `firstMaxByScore`
follows the spec's words); and it picks the score-90
`question_interrupt` candidate out of [85, 90, 88] and the first of
the tied pair out of [90, 90, 80]. -/
theorem selection_deterministic_max :
    (∀ l : List JValue, select_best_variant (.arr l) = .noneR ↔ l = [])
    ∧ (∀ l : List JValue, l ≠ [] → (∀ v ∈ l, wfCandidate v = true) →
        ∃ b, select_best_variant (.arr l) = .ok b ∧ firstMaxByScore l = some b
          ∧ b ∈ l ∧ ∀ c ∈ l, scoreKey c ≤ scoreKey b)
    ∧ select_best_variant (.arr [cand "personal_story" "A" "AI" 85 "w1",
        cand "question_interrupt" "B" "Lead" 90 "w2",
        cand "contrarian_hook" "C" "Edu" 88 "w3"])
        = .ok (cand "question_interrupt" "B" "Lead" 90 "w2")
    ∧ select_best_variant (.arr [cand "personal_story" "A" "AI" 90 "w1",
        cand "question_interrupt" "B" "Lead" 90 "w2",
        cand "contrarian_hook" "C" "Edu" 80 "w3"])
        = .ok (cand "personal_story" "A" "AI" 90 "w1") := by
  refine ⟨?_, ?_, rfl, rfl⟩
  · intro l
    constructor
    · intro h
      cases l with
      | nil => rfl
      | cons x xs => exact absurd h (select_best_variant_ne_noneR x xs)
    · rintro rfl
      rfl
  · intro l hne hwf
    obtain ⟨b, hsel, hfm⟩ := select_best_variant_wf l hne hwf
    exact ⟨b, hsel, hfm, firstMaxByScore_mem l b hfm, firstMaxByScore_ge l b hfm⟩

/-- Witness for C7 at a concrete two-candidate list. -/
theorem selection_deterministic_max_check :
    ∃ b, select_best_variant (.arr [cand "personal_story" "A" "AI" 85 "w1",
        cand "question_interrupt" "B" "Lead" 90 "w2"]) = .ok b
      ∧ firstMaxByScore [cand "personal_story" "A" "AI" 85 "w1",
          cand "question_interrupt" "B" "Lead" 90 "w2"] = some b
      ∧ b ∈ [cand "personal_story" "A" "AI" 85 "w1",
          cand "question_interrupt" "B" "Lead" 90 "w2"]
      ∧ ∀ c ∈ [cand "personal_story" "A" "AI" 85 "w1",
          cand "question_interrupt" "B" "Lead" 90 "w2"], scoreKey c ≤ scoreKey b :=
  selection_deterministic_max.2.1 _ (by simp)
    (by
      intro v hv
      rcases List.mem_cons.1 hv with rfl | hv2
      · rfl
      · rcases List.mem_cons.1 hv2 with rfl | hv3
        · rfl
        · simp at hv3)

/-- C8: the composed publish payload is the caption, a blank line,
then the hashtags each prefixed with `#` and joined by single spaces;
in particular caption "Hello" with hashtags ["AI", "Leadership"]
renders exactly "Hello\n\n#AI #Leadership", and whenever the driver
reaches the composer that exact rendering is the text injected into
it. -/
theorem caption_payload_format :
    full_caption "Hello" ["AI", "Leadership"] = "Hello\n\n#AI #Leadership"
    ∧ (∀ (c : String) (hs : List String), full_caption c hs
        = c ++ "\n\n" ++ String.intercalate " " (hs.map (fun t => "#" ++ t)))
    ∧ (∀ (email pw : String) (p : Platform) (c : String) (hs : List String),
        email.isEmpty = false → pw.isEmpty = false →
        p.loginFormOk = true → pyIn "feed" p.urlAfterLogin = true →
        p.composerOk = true → p.postBoxOk = true →
        (post_to_linkedin true email pw (.str c) (.arr (hs.map JValue.str)) p).injected
          = some (full_caption c hs)) := by
  refine ⟨rfl, fun c hs => rfl, ?_⟩
  intro email pw p c hs he hp hl hu hc hb
  simp only [post_to_linkedin, Bool.not_true, Bool.false_eq_true, if_false,
    he, hp, hl, hu, hc, hb, Bool.or_self, Bool.not_false, Bool.false_and,
    iterStrs_map_str, pyStrJ]
  split
  · rfl
  split
  · rfl
  split <;> rfl

/-- Witness for C8: the injected text for concrete credentials,
platform, caption and hashtags. -/
theorem caption_payload_format_check :
    (post_to_linkedin true "user@example.com" "hunter2" (.str "Hello")
      (.arr (["AI", "Leadership"].map JValue.str)) platOK).injected
      = some (full_caption "Hello" ["AI", "Leadership"]) :=
  caption_payload_format.2.2 "user@example.com" "hunter2" platOK "Hello"
    ["AI", "Leadership"] rfl rfl rfl rfl rfl rfl

/-- C10: a candidate dict lacking the score field gets sort key 0
(the `.get` default), the key function still evaluates on it (no
failure), the ranking step is total and its top element is the
earliest maximum of the keys, and the score-lacking candidate is never
the top of the ranking when some candidate has a positive score. -/
theorem missing_score_defaults_to_zero (l : List JValue) (c : JValue)
    (hc : c ∈ l) (hmiss : lacksScore c = true) :
    scoreKey c = 0
    ∧ scoreIsNumeric c = true
    ∧ (sortByScoreDesc l).head? = firstMaxByScore l
    ∧ (∀ d ∈ l, 0 < scoreKey d → ¬ (sortByScoreDesc l).head? = some c) := by
  have hck : scoreKey c = 0 := by
    cases c with
    | obj fs =>
        simp only [lacksScore, Option.isNone_iff_eq_none] at hmiss
        simp [scoreKey, hmiss]
    | null => simp [lacksScore] at hmiss
    | bool b => simp [lacksScore] at hmiss
    | num n => simp [lacksScore] at hmiss
    | fnum fl => simp [lacksScore] at hmiss
    | str st => simp [lacksScore] at hmiss
    | arr el => simp [lacksScore] at hmiss
  have hcn : scoreIsNumeric c = true := by
    cases c with
    | obj fs =>
        simp only [lacksScore, Option.isNone_iff_eq_none] at hmiss
        simp [scoreIsNumeric, hmiss]
    | null => simp [lacksScore] at hmiss
    | bool b => simp [lacksScore] at hmiss
    | num n => simp [lacksScore] at hmiss
    | fnum fl => simp [lacksScore] at hmiss
    | str st => simp [lacksScore] at hmiss
    | arr el => simp [lacksScore] at hmiss
  refine ⟨hck, hcn, head?_sortByScoreDesc l, ?_⟩
  intro d hd hpos hhead
  rw [head?_sortByScoreDesc l] at hhead
  have hge := firstMaxByScore_ge l c hhead d hd
  omega

/-- Witness for C10: in a concrete list holding one score-lacking
candidate and one candidate with score 85, the score-lacking candidate
keys to 0 and is not the ranking's top element. -/
theorem missing_score_defaults_to_zero_check :
    scoreKey candNoScore = 0
    ∧ ¬ (sortByScoreDesc [candNoScore, cand "personal_story" "A" "AI" 85 "w1"]).head?
        = some candNoScore :=
  have h := missing_score_defaults_to_zero
    [candNoScore, cand "personal_story" "A" "AI" 85 "w1"] candNoScore
    (List.mem_cons_self _ _) rfl
  ⟨h.1, h.2.2.2 (cand "personal_story" "A" "AI" 85 "w1")
    (List.mem_cons_of_mem _ (List.mem_cons_self _ _)) (by decide)⟩

end AutoPoster
